import Mathlib

/-
  Shallow embedding of juliooidella/code-review-cli.

  Sources embedded here:
  - src/src/code_review/__init__.py : StepTracker, select_with_arrows,
    create_file, init (the Typer command), AGENT_CONFIG, SCRIPT_TYPE_CHOICES.
  - src/src/code_review/powershell_utils.py : sanitize_branch_name.

  Python strings are modelled as Lean String / List Char; the mutable
  tracker is modelled by explicit state passing; console / filesystem
  effects of the init command are modelled as an explicit event trace;
  Python exceptions are modelled with Except / Option outcomes.
-/

namespace CodeReview

/-! ### StepTracker (class StepTracker, __init__.py lines 237-297) -/

structure Step where
  key : String
  label : String
  status : String
  detail : String
deriving DecidableEq, Repr

structure StepTracker where
  title : String
  steps : List Step
deriving DecidableEq, Repr

/-- Python add: append a fresh pending step unless the key is present. -/
def StepTracker.add (t : StepTracker) (key label : String) : StepTracker :=
  if key ∈ t.steps.map Step.key then t
  else { t with steps := t.steps ++ [{ key := key, label := label, status := "pending", detail := "" }] }

/-- Body of `StepTracker._update`: mutate the first step with the key in
place (detail only when non-empty, mirroring Python truthiness), else
append a new step whose label is the key itself. -/
def updateStep : List Step → String → String → String → List Step
  | [], key, status, detail => [{ key := key, label := key, status := status, detail := detail }]
  | s :: rest, key, status, detail =>
    if s.key = key then
      { s with status := status, detail := if detail ≠ "" then detail else s.detail } :: rest
    else
      s :: updateStep rest key status detail

def StepTracker.update (t : StepTracker) (key status detail : String) : StepTracker :=
  { t with steps := updateStep t.steps key status detail }

def StepTracker.start (t : StepTracker) (key detail : String) : StepTracker :=
  t.update key "running" detail

def StepTracker.complete (t : StepTracker) (key detail : String) : StepTracker :=
  t.update key "done" detail

def StepTracker.error (t : StepTracker) (key detail : String) : StepTracker :=
  t.update key "error" detail

/-- Status of the first step carrying `key`, if any. -/
def StepTracker.statusOf (t : StepTracker) (key : String) : Option String :=
  (t.steps.find? (fun s => s.key == key)).map Step.status

/-! ### StepTracker with a refresh callback (`attach_refresh` / `_maybe_refresh`)

The callback is a zero-argument action that may raise (modelled as
`Except String Unit`).  `_maybe_refresh` swallows every exception. -/

abbrev RefreshCB := Option (Unit → Except String Unit)

def maybeRefreshE : RefreshCB → Except String Unit
  | none => .ok ()
  | some f =>
    match f () with
    | .ok _ => .ok ()
    | .error _ => .ok ()

def StepTracker.addE (cb : RefreshCB) (t : StepTracker) (key label : String) :
    Except String StepTracker :=
  if key ∈ t.steps.map Step.key then .ok t
  else
    (maybeRefreshE cb).map (fun _ =>
      { t with steps := t.steps ++ [{ key := key, label := label, status := "pending", detail := "" }] })

def StepTracker.updateE (cb : RefreshCB) (t : StepTracker) (key status detail : String) :
    Except String StepTracker :=
  (maybeRefreshE cb).map (fun _ => t.update key status detail)

def StepTracker.startE (cb : RefreshCB) (t : StepTracker) (key detail : String) :
    Except String StepTracker :=
  t.updateE cb key "running" detail

def StepTracker.completeE (cb : RefreshCB) (t : StepTracker) (key detail : String) :
    Except String StepTracker :=
  t.updateE cb key "done" detail

def StepTracker.errorE (cb : RefreshCB) (t : StepTracker) (key detail : String) :
    Except String StepTracker :=
  t.updateE cb key "error" detail

/-! ### Selector (select_with_arrows, __init__.py lines 309-363) -/

inductive UpDown where
  | up
  | down
deriving DecidableEq, Repr

/-- One navigation key press: Python `%` on ints is `Int.emod`. -/
def selStep (n : Int) (i : Int) : UpDown → Int
  | .up => (i - 1) % n
  | .down => (i + 1) % n

/-- A sequence of UP/DOWN presses starting from index `i`. -/
def navigate (n i : Int) (ks : List UpDown) : Int :=
  ks.foldl (selStep n) i

/-- Initial highlighted index: index of `default_key` when that argument is
truthy and present among the option keys, else 0. -/
def initialIndex (optionKeys : List String) (defaultKey : Option String) : Int :=
  match defaultKey with
  | some k => if k ≠ "" ∧ k ∈ optionKeys then (optionKeys.indexOf k : Int) else 0
  | none => 0

/-! ### String helpers shared by create_file and sanitize_branch_name -/

/-- Tests whether `pat` starts `s` (pattern first). -/
def startsWith : List Char → List Char → Bool
  | [], _ => true
  | _ :: _, [] => false
  | p :: ps, c :: cs => p == c && startsWith ps cs

/-- One step of Python `str.replace(old, new)`: single left-to-right pass,
replacing non-overlapping occurrences of `pat` by `rep`.  The `Nat`
argument is recursion fuel; `s.length` fuel always suffices because every
step consumes at least one character (each branch of the pass drops at
least one character of the input). -/
def pyReplaceAux (pat rep : List Char) : Nat → List Char → List Char
  | _, [] => []
  | 0, s => s
  | n + 1, c :: cs =>
    if startsWith pat (c :: cs) && !pat.isEmpty then
      rep ++ pyReplaceAux pat rep n ((c :: cs).drop pat.length)
    else
      c :: pyReplaceAux pat rep n cs

/-- Python `s.replace(pat, rep)`. -/
def pyReplace (pat rep s : List Char) : List Char :=
  pyReplaceAux pat rep s.length s

/-- Whether the substring `--` occurs in `s` (Python `"--" in safe`). -/
def hasDD : List Char → Bool
  | [] => false
  | [_] => false
  | a :: b :: rest => (a == '-' && b == '-') || hasDD (b :: rest)

/-- Fuel-bounded form of `while "--" in safe: safe = safe.replace("--", "-")`.
Each productive iteration strictly shrinks the string, so `s.length` fuel
always reaches the loop's fixpoint (proved below). -/
def collapseAux : Nat → List Char → List Char
  | 0, s => s
  | n + 1, s =>
    if hasDD s then collapseAux n (pyReplace ['-', '-'] ['-'] s) else s

def collapseDashes (s : List Char) : List Char :=
  collapseAux s.length s

/-- Python `str.strip()` whitespace set (ASCII part). -/
def pyIsSpace (c : Char) : Bool :=
  c == ' ' || c == '\t' || c == '\n' || c == '\r' || c == '\x0b' || c == '\x0c'

/-- Python `str.strip()`: drop leading and trailing whitespace. -/
def pyStrip (s : List Char) : List Char :=
  (((s.dropWhile pyIsSpace).reverse.dropWhile pyIsSpace).reverse)

/-! ### sanitize_branch_name (powershell_utils.py lines 12-22) -/

/-- The token tuple replaced by hyphens in sanitize_branch_name. -/
def sanitizeTokens : List Char := ['/', '\\', ':', ' ', '.', '~', '^', '[', ']']

def sanitizeList (s : List Char) : List Char :=
  let stripped := pyStrip s
  let replaced := sanitizeTokens.foldl (fun acc t => pyReplace [t] ['-'] acc) stripped
  let collapsed := collapseDashes replaced
  if collapsed = [] then "branch".data else collapsed

def sanitize_branch_name (s : String) : String :=
  ⟨sanitizeList s.data⟩

/-! ### create_file content normalization (__init__.py lines 397-419)

`create_file` runs `content = content.replace('\r\n', '\n')` and then
writes with `newline='\n'`, so the bytes on disk are exactly the string
after that single replace. -/

def create_file_written (content : String) : String :=
  ⟨pyReplace ['\r', '\n'] ['\n'] content.data⟩

/-- Contents whose carriage returns all occur as part of a CRLF pair. -/
inductive WellCRLF : List Char → Prop
  | nil : WellCRLF []
  | crlf {l : List Char} : WellCRLF l → WellCRLF ('\r' :: '\n' :: l)
  | other {c : Char} {l : List Char} : c ≠ '\r' → WellCRLF l → WellCRLF (c :: l)

/-! ### The init command (__init__.py lines 421-526), as an event trace -/

inductive Ev where
  | banner
  | printErrInvalidAI (given : String) (valid : List String)
  | printErrInvalidScriptFlavor (given : String) (valid : List String)
  | printDefaultAI (chosen : String)
  | printDefaultScript (chosen : String)
  | selectorAssistant
  | selectorScript
  | printCancelled
  | printTarget (name : String)
  | printScriptChoice (s : String)
  | mkdirEv (path : String)
  | fileWrite (path : String)
  | chmodEv (path : String)
  | printSummary
deriving DecidableEq, Repr

/-- Filesystem-touching events (directory creation, file write, chmod). -/
def Ev.isFs : Ev → Bool
  | .mkdirEv _ => true
  | .fileWrite _ => true
  | .chmodEv _ => true
  | _ => false

/-- Selector invocations. -/
def Ev.isSel : Ev → Bool
  | .selectorAssistant => true
  | .selectorScript => true
  | _ => false

/-- File-writing events. -/
def Ev.isWrite : Ev → Bool
  | .fileWrite _ => true
  | _ => false

inductive ExitStatus where
  | normal
  | exitCode (n : Nat)
  | uncaught (msg : String)
deriving DecidableEq, Repr

/-- Final process exit code: normal return of a Typer command is 0,
`typer.Exit(n)` is `n`, an uncaught exception makes the CLI exit 1. -/
def exitCodeOf : ExitStatus → Nat
  | .normal => 0
  | .exitCode n => n
  | .uncaught _ => 1

/-- The AGENT_CONFIG table: key, display name, prompt directory. -/
def AGENT_CONFIG : List (String × String × String) :=
  [("copilot", "GitHub Copilot", ".github/prompts"),
   ("claude", "Claude Code", ".claude/prompts"),
   ("gemini", "Gemini CLI", ".gemini/prompts"),
   ("cursor", "Cursor (IDE)", ".cursor/prompts"),
   ("openai", "OpenAI / Codex", ".openai/prompts"),
   ("generic", "Genérico (Outros)", "code_review/prompts")]

def agentKeys : List String := AGENT_CONFIG.map (fun e => e.1)

def agentLookup (k : String) : Option (String × String) :=
  (AGENT_CONFIG.find? (fun e => e.1 == k)).map (fun e => e.2)

/-- SCRIPT_TYPE_CHOICES keys. -/
def scriptKeys : List String := ["sh", "ps"]

/-- Environment of one run: terminal interactivity, host platform, what the
interactive selectors would yield, and which filesystem operations fail
(`some msg` = the operation raises with message `msg`). -/
structure Env where
  isatty : Bool
  isWindows : Bool
  osIsNt : Bool
  aiSelCancel : Bool
  aiSelChoice : String
  scriptSelCancel : Bool
  scriptSelChoice : String
  mkdirScriptsErr : Option String
  mkdirPromptErr : Option String
  createScriptErr : Option String
  createPromptErr : Option String
deriving Repr

/-- Assistant resolution when the --ai flag is absent or falsy:
non-interactive default, or the interactive selector (which hard-exits on
cancel). -/
def resolveAIDefault (env : Env) : List Ev × Except Unit String :=
  if !env.isatty then
    ([.printDefaultAI "copilot"], .ok "copilot")
  else if env.aiSelCancel then
    ([.selectorAssistant, .printCancelled], .error ())
  else
    ([.selectorAssistant], .ok env.aiSelChoice)

/-- Step 1 of init: `if ai:` (empty string is falsy) then validate against
AGENT_CONFIG, else fall back to default / selector. -/
def resolveAI (ai : Option String) (env : Env) : List Ev × Except Unit String :=
  match ai with
  | some a =>
    if a = "" then resolveAIDefault env
    else if a ∈ agentKeys then ([], .ok a)
    else ([.printErrInvalidAI a agentKeys], .error ())
  | none => resolveAIDefault env

def resolveScriptDefault (env : Env) : List Ev × Except Unit String :=
  let d := if env.isWindows then "ps" else "sh"
  if !env.isatty then
    ([.printDefaultScript d], .ok d)
  else if env.scriptSelCancel then
    ([.selectorScript, .printCancelled], .error ())
  else
    ([.selectorScript], .ok env.scriptSelChoice)

/-- Step 2 of init: `if script_type:` then validate against
SCRIPT_TYPE_CHOICES, else fall back to default / selector. -/
def resolveScript (st : Option String) (env : Env) : List Ev × Except Unit String :=
  match st with
  | some s =>
    if s = "" then resolveScriptDefault env
    else if s ∈ scriptKeys then ([], .ok s)
    else ([.printErrInvalidScriptFlavor s scriptKeys], .error ())
  | none => resolveScriptDefault env

/-- Result of one create_file call: events, tracker state, raised fault. -/
structure CFRes where
  ev : List Ev
  tracker : StepTracker
  raised : Option String
deriving Repr

/-- create_file at the step level: start the step; on failure mark it error
and re-raise; on success record the write (plus chmod when requested on a
POSIX host) and mark the step done. -/
def createFileModel (t : StepTracker) (key path : String) (makeExec : Bool)
    (err : Option String) (osIsNt : Bool) : CFRes :=
  let t1 := t.start key ""
  match err with
  | some e => { ev := [], tracker := t1.error key e, raised := some e }
  | none =>
    if makeExec && !osIsNt then
      { ev := [.fileWrite path, .chmodEv path],
        tracker := t1.complete key "criado & chmod +x", raised := none }
    else
      { ev := [.fileWrite path], tracker := t1.complete key "criado", raised := none }

/-- Path `script_dir / ("git-relatorio.sh" | "git-relatorio.ps1")`. -/
def scriptFilePath (selScript : String) : String :=
  if selScript == "sh" then ".code_review/scripts/git-relatorio.sh"
  else ".code_review/scripts/git-relatorio.ps1"

structure InitResult where
  exit : ExitStatus
  events : List Ev
  tracker : StepTracker
  selAI : Option String
  selScript : Option String
deriving Repr

/-- The body of init after both choices are resolved: target prints, step
registration, directory creation (whose failure is reported on the tracker
and then followed by a plain `return`, i.e. a normal exit), the two
create_file calls (whose failures re-raise), and the final summary. -/
def runSetup (selAI selScript : String) (env : Env) : InitResult :=
  match agentLookup selAI with
  | none =>
    { exit := .uncaught ("KeyError: " ++ selAI), events := [],
      tracker := ⟨"Inicializando Review Kit", []⟩, selAI := some selAI, selScript := some selScript }
  | some (name, pdir) =>
    let ev1 : List Ev := [.printTarget name, .printScriptChoice selScript.toUpper]
    let t0 := (((StepTracker.mk "Inicializando Review Kit" []).add
        "dirs" "Criar estrutura de diretórios").add
        "script" ("Gerar script " ++ selScript.toUpper)).add
        "prompt" ("Gerar Prompt para " ++ selAI)
    let scriptDir := ".code_review/scripts"
    let t1 := t0.start "dirs" ""
    match env.mkdirScriptsErr with
    | some e =>
      { exit := .normal, events := ev1, tracker := t1.error "dirs" e,
        selAI := some selAI, selScript := some selScript }
    | none =>
      match env.mkdirPromptErr with
      | some e =>
        { exit := .normal, events := ev1 ++ [.mkdirEv scriptDir], tracker := t1.error "dirs" e,
          selAI := some selAI, selScript := some selScript }
      | none =>
        let ev2 := ev1 ++ [.mkdirEv scriptDir, .mkdirEv pdir]
        let t2 := t1.complete "dirs" "pronto"
        let r1 := createFileModel t2 "script" (scriptFilePath selScript)
          (selScript == "sh") env.createScriptErr env.osIsNt
        match r1.raised with
        | some e =>
          { exit := .uncaught e, events := ev2 ++ r1.ev, tracker := r1.tracker,
            selAI := some selAI, selScript := some selScript }
        | none =>
          let r2 := createFileModel r1.tracker "prompt" (pdir ++ "/code_review.prompt.md") false
            env.createPromptErr env.osIsNt
          match r2.raised with
          | some e =>
            { exit := .uncaught e, events := ev2 ++ r1.ev ++ r2.ev, tracker := r2.tracker,
              selAI := some selAI, selScript := some selScript }
          | none =>
            { exit := .normal, events := ev2 ++ r1.ev ++ r2.ev ++ [.printSummary],
              tracker := r2.tracker, selAI := some selAI, selScript := some selScript }

/-- The init command: banner, assistant resolution, script-flavor
resolution (each fatal failure is `typer.Exit(1)`), then the setup phase. -/
def init (ai scriptType : Option String) (here : Bool) (env : Env) : InitResult :=
  let _ := here
  let (evA, ra) := resolveAI ai env
  match ra with
  | .error _ =>
    { exit := .exitCode 1, events := .banner :: evA,
      tracker := ⟨"Inicializando Review Kit", []⟩, selAI := none, selScript := none }
  | .ok a =>
    let (evS, rs) := resolveScript scriptType env
    match rs with
    | .error _ =>
      { exit := .exitCode 1, events := .banner :: (evA ++ evS),
        tracker := ⟨"Inicializando Review Kit", []⟩, selAI := some a, selScript := none }
    | .ok s =>
      let r := runSetup a s env
      { r with events := .banner :: (evA ++ evS ++ r.events), selAI := some a, selScript := some s }

/-- A concrete non-interactive POSIX environment with no failures. -/
def envPosixOk : Env :=
  { isatty := false, isWindows := false, osIsNt := false,
    aiSelCancel := false, aiSelChoice := "copilot",
    scriptSelCancel := false, scriptSelChoice := "sh",
    mkdirScriptsErr := none, mkdirPromptErr := none,
    createScriptErr := none, createPromptErr := none }

/-! ## Lemmas -/

theorem maybeRefreshE_eq_ok (cb : RefreshCB) : maybeRefreshE cb = .ok () := by
  cases cb with
  | none => rfl
  | some f =>
    simp only [maybeRefreshE]
    cases f () <;> rfl

theorem updateStep_append (steps : List Step) (key st d : String)
    (h : ∀ s ∈ steps, s.key ≠ key) :
    updateStep steps key st d =
      steps ++ [{ key := key, label := key, status := st, detail := d }] := by
  induction steps with
  | nil => rfl
  | cons s rest ih =>
    have hs : ¬(s.key = key) := h s (List.mem_cons_self ..)
    simp only [updateStep, if_neg hs, List.cons_append, List.cons.injEq, true_and]
    exact ih (fun x hx => h x (List.mem_cons_of_mem _ hx))

theorem add_mem_noop (t : StepTracker) (k l : String) (h : k ∈ t.steps.map Step.key) :
    t.add k l = t := by
  simp [StepTracker.add, h]

/-! ## Theorems for the claims -/

/-- Claim C4: calling start, complete or error with a key that was never
registered appends exactly one new step with that key (label = key) and
the corresponding status (running, done, error), raising no fault. -/
theorem tracker_update_missing_key_appends (t : StepTracker) (key d : String)
    (h : key ∉ t.steps.map Step.key) :
    (t.start key d).steps =
      t.steps ++ [{ key := key, label := key, status := "running", detail := d }] ∧
    (t.complete key d).steps =
      t.steps ++ [{ key := key, label := key, status := "done", detail := d }] ∧
    (t.error key d).steps =
      t.steps ++ [{ key := key, label := key, status := "error", detail := d }] := by
  have h2 : ∀ s ∈ t.steps, s.key ≠ key := by
    intro s hs heq
    exact h (heq ▸ List.mem_map_of_mem Step.key hs)
  refine ⟨?_, ?_, ?_⟩ <;>
    simp [StepTracker.start, StepTracker.complete, StepTracker.error, StepTracker.update,
      updateStep_append _ _ _ _ h2]

theorem tracker_update_missing_key_appends_witness :
    "dirs" ∉ (StepTracker.mk "T" []).steps.map Step.key ∧
    ((StepTracker.mk "T" []).start "dirs" "x").steps =
      [{ key := "dirs", label := "dirs", status := "running", detail := "x" }] := by
  refine ⟨by decide, ?_⟩
  have h := tracker_update_missing_key_appends (StepTracker.mk "T" []) "dirs" "x" (by decide)
  simpa using h.1

/-- Claim C5: registering the same step key twice via add leaves exactly one step
with that key, in status pending; the second registration changes nothing. -/
theorem tracker_add_idempotent (t : StepTracker) (k l l2 : String)
    (h : ∀ s ∈ t.steps, s.key ≠ k) :
    (t.add k l).add k l2 = t.add k l ∧
    ((t.add k l).add k l2).steps.filter (fun s => s.key == k) =
      [{ key := k, label := l, status := "pending", detail := "" }] := by
  have hk : k ∉ t.steps.map Step.key := by
    intro hmem
    obtain ⟨s, hs, heq⟩ := List.mem_map.mp hmem
    exact h s hs heq
  have h1 : t.add k l =
      { t with steps := t.steps ++ [{ key := k, label := l, status := "pending", detail := "" }] } := by
    simp [StepTracker.add, hk]
  have hk2 : k ∈ (t.add k l).steps.map Step.key := by
    rw [h1]; simp
  have hnoop : (t.add k l).add k l2 = t.add k l := add_mem_noop _ _ _ hk2
  refine ⟨hnoop, ?_⟩
  rw [hnoop, h1]
  simp only [List.filter_append]
  have hnil : t.steps.filter (fun s => s.key == k) = [] := by
    rw [List.filter_eq_nil_iff]
    intro s hs
    simpa using h s hs
  rw [hnil]
  simp

theorem tracker_add_idempotent_witness :
    ((StepTracker.mk "T" []).add "dirs" "L").add "dirs" "M" =
      (StepTracker.mk "T" []).add "dirs" "L" ∧
    (((StepTracker.mk "T" []).add "dirs" "L").add "dirs" "M").steps.filter
        (fun s => s.key == "dirs") =
      [{ key := "dirs", label := "L", status := "pending", detail := "" }] := by
  have h := tracker_add_idempotent (StepTracker.mk "T" []) "dirs" "L" "M"
    (by intro s hs; simp at hs)
  exact ⟨h.1, h.2⟩

/-- Claim C9: for every mutating tracker call with a refresh callback attached,
a fault raised by the callback is swallowed: the call returns normally
(`Except.ok`) with exactly the state the callback-free operation produces. -/
theorem tracker_refresh_faults_swallowed (cb : RefreshCB) (t : StepTracker) (k l d : String) :
    t.addE cb k l = .ok (t.add k l) ∧
    t.startE cb k d = .ok (t.start k d) ∧
    t.completeE cb k d = .ok (t.complete k d) ∧
    t.errorE cb k d = .ok (t.error k d) := by
  refine ⟨?_, ?_, ?_, ?_⟩
  · by_cases hm : k ∈ t.steps.map Step.key <;>
      simp [StepTracker.addE, StepTracker.add, hm, maybeRefreshE_eq_ok, Except.map]
  all_goals
    simp [StepTracker.startE, StepTracker.completeE, StepTracker.errorE, StepTracker.updateE,
      StepTracker.start, StepTracker.complete, StepTracker.error,
      maybeRefreshE_eq_ok, Except.map]

theorem navigate_bounds (n : Int) (hn : 0 < n) (i : Int) (hi : 0 ≤ i ∧ i < n)
    (ks : List UpDown) : 0 ≤ navigate n i ks ∧ navigate n i ks < n := by
  induction ks generalizing i with
  | nil => exact hi
  | cons k ks ih =>
    have hstep : 0 ≤ selStep n i k ∧ selStep n i k < n := by
      cases k <;>
        exact ⟨Int.emod_nonneg _ (ne_of_gt hn), Int.emod_lt_of_pos _ hn⟩
    exact ih _ hstep

/-- Claim C3: for every non-empty option set and every sequence of UP/DOWN
presses, the highlighted index stays within [0, n-1]; UP computes
(i - 1) mod n and DOWN computes (i + 1) mod n. -/
theorem selector_index_invariant (optionKeys : List String) (hk : optionKeys ≠ [])
    (defaultKey : Option String) (ks : List UpDown) :
    (0 ≤ initialIndex optionKeys defaultKey ∧
      initialIndex optionKeys defaultKey < (optionKeys.length : Int)) ∧
    (0 ≤ navigate optionKeys.length (initialIndex optionKeys defaultKey) ks ∧
      navigate optionKeys.length (initialIndex optionKeys defaultKey) ks <
        (optionKeys.length : Int)) ∧
    (∀ i : Int, selStep optionKeys.length i .up = (i - 1) % (optionKeys.length : Int) ∧
      selStep optionKeys.length i .down = (i + 1) % (optionKeys.length : Int)) := by
  have hn : 0 < (optionKeys.length : Int) := by
    exact_mod_cast List.length_pos.mpr hk
  have h0 : 0 ≤ initialIndex optionKeys defaultKey ∧
      initialIndex optionKeys defaultKey < (optionKeys.length : Int) := by
    cases defaultKey with
    | none => exact ⟨le_refl 0, hn⟩
    | some k =>
      by_cases hc : k ≠ "" ∧ k ∈ optionKeys
      · have : initialIndex optionKeys (some k) = (optionKeys.indexOf k : Int) := by
          simp only [initialIndex, if_pos hc]
        rw [this]
        refine ⟨Int.ofNat_nonneg _, ?_⟩
        exact_mod_cast List.indexOf_lt_length.mpr hc.2
      · have : initialIndex optionKeys (some k) = 0 := by
          simp only [initialIndex, if_neg hc]
        rw [this]
        exact ⟨le_refl 0, hn⟩
  exact ⟨h0, navigate_bounds _ hn _ h0 ks, fun i => ⟨rfl, rfl⟩⟩

theorem selector_index_invariant_witness :
    (["sh", "ps"] ≠ ([] : List String)) ∧
    (0 ≤ navigate ((["sh", "ps"] : List String).length : Int)
        (initialIndex ["sh", "ps"] (some "ps")) [UpDown.up, UpDown.up, UpDown.down] ∧
      navigate ((["sh", "ps"] : List String).length : Int)
        (initialIndex ["sh", "ps"] (some "ps")) [UpDown.up, UpDown.up, UpDown.down] <
        ((["sh", "ps"] : List String).length : Int)) := by
  exact ⟨by decide,
    (selector_index_invariant ["sh", "ps"] (by decide) (some "ps")
      [UpDown.up, UpDown.up, UpDown.down]).2.1⟩

theorem pyReplaceAux_nil (pat rep : List Char) (fuel : Nat) :
    pyReplaceAux pat rep fuel [] = [] := by
  cases fuel <;> rfl

theorem pyReplaceAux_mem (fuel : Nat) (pat rep : List Char) :
    ∀ (s : List Char) (a : Char), a ∈ pyReplaceAux pat rep fuel s → a ∈ s ∨ a ∈ rep := by
  induction fuel with
  | zero =>
    intro s a h
    cases s with
    | nil => simp [pyReplaceAux] at h
    | cons c cs => exact Or.inl h
  | succ n ih =>
    intro s a h
    cases s with
    | nil => simp [pyReplaceAux] at h
    | cons c cs =>
      rw [pyReplaceAux] at h
      split at h
      · rcases List.mem_append.mp h with h1 | h1
        · exact Or.inr h1
        · rcases ih _ _ h1 with h2 | h2
          · exact Or.inl (List.drop_subset _ _ h2)
          · exact Or.inr h2
      · rcases List.mem_cons.mp h with h1 | h1
        · exact Or.inl (h1 ▸ List.mem_cons_self c cs)
        · rcases ih _ _ h1 with h2 | h2
          · exact Or.inl (List.mem_cons_of_mem _ h2)
          · exact Or.inr h2

theorem pyReplaceAux_single_not_mem (fuel : Nat) (t r : Char) (htr : t ≠ r) :
    ∀ s : List Char, s.length ≤ fuel → t ∉ pyReplaceAux [t] [r] fuel s := by
  induction fuel with
  | zero =>
    intro s hs
    have : s = [] := List.length_eq_zero.mp (Nat.le_zero.mp hs)
    subst this
    simp [pyReplaceAux]
  | succ n ih =>
    intro s hs
    cases s with
    | nil => simp [pyReplaceAux]
    | cons c cs =>
      rw [pyReplaceAux]
      have hlen : cs.length ≤ n := by simpa using hs
      split
      · next hcond =>
        have hc : t = c := by
          have := (Bool.and_eq_true ..).mp hcond |>.1
          simpa [startsWith] using this
        simp only [List.drop_succ_cons, List.drop_zero, List.singleton_append]
        intro hmem
        rcases List.mem_cons.mp hmem with h1 | h1
        · exact htr h1
        · exact ih cs hlen h1
      · next hcond =>
        have hc : t ≠ c := by
          intro he
          apply hcond
          simp [startsWith, he]
        intro hmem
        rcases List.mem_cons.mp hmem with h1 | h1
        · exact hc h1
        · exact ih cs hlen h1

theorem pyReplaceAux_dd_len_le (fuel : Nat) :
    ∀ s : List Char, (pyReplaceAux ['-', '-'] ['-'] fuel s).length ≤ s.length := by
  induction fuel with
  | zero =>
    intro s
    cases s <;> simp [pyReplaceAux]
  | succ n ih =>
    intro s
    match s with
    | [] => simp [pyReplaceAux]
    | [c] =>
      rw [pyReplaceAux]
      have : startsWith ['-', '-'] [c] = false := by simp [startsWith]
      simp [this, pyReplaceAux_nil]
    | a :: b :: t =>
      rw [pyReplaceAux]
      split
      · next hcond =>
        simp only [List.length_cons, List.length_nil, List.drop_succ_cons,
          List.drop_zero, List.singleton_append]
        have := ih t
        omega
      · next hcond =>
        simp only [List.length_cons]
        have := ih (b :: t)
        simp only [List.length_cons] at this
        omega

theorem pyReplaceAux_dd_len_lt (fuel : Nat) :
    ∀ s : List Char, hasDD s = true → s.length ≤ fuel →
      (pyReplaceAux ['-', '-'] ['-'] fuel s).length < s.length := by
  induction fuel with
  | zero =>
    intro s hdd hs
    have : s = [] := List.length_eq_zero.mp (Nat.le_zero.mp hs)
    subst this
    simp [hasDD] at hdd
  | succ n ih =>
    intro s hdd hs
    match s with
    | [] => simp [hasDD] at hdd
    | [c] => simp [hasDD] at hdd
    | a :: b :: t =>
      rw [pyReplaceAux]
      split
      · next hcond =>
        simp only [List.length_cons, List.length_nil, List.drop_succ_cons,
          List.drop_zero, List.singleton_append]
        have := pyReplaceAux_dd_len_le n t
        omega
      · next hcond =>
        have hab : (a == '-' && b == '-') = false := by
          by_contra hne
          apply hcond
          have h1 : a = '-' ∧ b = '-' := by
            have := Bool.not_eq_false _ |>.mp hne
            simpa using this
          simp [startsWith, h1.1, h1.2]
        have hdd2 : hasDD (b :: t) = true := by
          rw [hasDD] at hdd
          simpa [hab] using hdd
        have hlen : (b :: t).length ≤ n := by simpa using hs
        have := ih (b :: t) hdd2 hlen
        simp only [List.length_cons] at this ⊢
        omega

theorem collapseAux_no_dd (fuel : Nat) :
    ∀ s : List Char, s.length ≤ fuel → hasDD (collapseAux fuel s) = false := by
  induction fuel with
  | zero =>
    intro s hs
    have : s = [] := List.length_eq_zero.mp (Nat.le_zero.mp hs)
    subst this
    rfl
  | succ n ih =>
    intro s hs
    rw [collapseAux]
    split
    · next hdd =>
      apply ih
      have hlt := pyReplaceAux_dd_len_lt s.length s hdd (le_refl _)
      unfold pyReplace
      omega
    · next hdd => exact Bool.not_eq_true _ |>.mp hdd

theorem collapseAux_mem (fuel : Nat) :
    ∀ (s : List Char) (a : Char), a ∈ collapseAux fuel s → a ∈ s ∨ a = '-' := by
  induction fuel with
  | zero => intro s a h; exact Or.inl h
  | succ n ih =>
    intro s a h
    rw [collapseAux] at h
    split at h
    · rcases ih _ _ h with h1 | h1
      · rcases pyReplaceAux_mem _ _ _ _ _ h1 with h2 | h2
        · exact Or.inl h2
        · simp at h2; exact Or.inr h2
      · exact Or.inr h1
    · exact Or.inl h

theorem foldl_replace_nil (ts : List Char) :
    ts.foldl (fun acc t => pyReplace [t] ['-'] acc) [] = [] := by
  induction ts with
  | nil => rfl
  | cons t rest ih => simpa [pyReplace, pyReplaceAux] using ih

theorem foldl_replace_not_mem (ts : List Char) (c : Char) (hc : c ≠ '-') :
    ∀ acc : List Char, (c ∈ ts ∨ c ∉ acc) →
      c ∉ ts.foldl (fun acc t => pyReplace [t] ['-'] acc) acc := by
  induction ts with
  | nil =>
    intro acc h
    rcases h with h | h
    · simp at h
    · exact h
  | cons t rest ih =>
    intro acc h
    simp only [List.foldl_cons]
    by_cases hct : c = t
    · subst hct
      apply ih _ (Or.inr ?_)
      exact pyReplaceAux_single_not_mem acc.length c '-' hc acc (le_refl _)
    · rcases h with h | h
      · rcases List.mem_cons.mp h with h1 | h1
        · exact absurd h1 hct
        · exact ih _ (Or.inl h1)
      · apply ih _ (Or.inr ?_)
        intro hmem
        rcases pyReplaceAux_mem _ _ _ _ _ hmem with h1 | h1
        · exact h h1
        · simp at h1; exact hc h1

theorem pyStrip_all_space (s : List Char) (h : ∀ c ∈ s, pyIsSpace c = true) :
    pyStrip s = [] := by
  unfold pyStrip
  have h1 : s.dropWhile pyIsSpace = [] := by
    rw [List.dropWhile_eq_nil_iff]
    exact h
  rw [h1]
  rfl

/-- Claim C10: sanitize_branch_name always returns a non-empty string free of
the nine replaced characters and of the substring `--`; an empty or
whitespace-only input yields the literal `branch`. -/
theorem sanitize_branch_name_spec (s : String) :
    sanitize_branch_name s ≠ "" ∧
    (∀ c ∈ sanitizeTokens, c ∉ (sanitize_branch_name s).data) ∧
    hasDD (sanitize_branch_name s).data = false ∧
    ((∀ c ∈ s.data, pyIsSpace c = true) → sanitize_branch_name s = "branch") := by
  have hbody : sanitize_branch_name s = ⟨sanitizeList s.data⟩ := rfl
  by_cases hR : collapseDashes
      (sanitizeTokens.foldl (fun acc t => pyReplace [t] ['-'] acc) (pyStrip s.data)) = []
  · have hval : sanitize_branch_name s = "branch" := by
      rw [hbody]
      show String.mk (sanitizeList s.data) = "branch"
      unfold sanitizeList
      rw [if_pos hR]
    refine ⟨by rw [hval]; decide, ?_, by rw [hval]; decide, fun _ => hval⟩
    intro c hc
    rw [hval]
    simp only [sanitizeTokens, List.mem_cons, List.not_mem_nil, or_false] at hc
    rcases hc with rfl | rfl | rfl | rfl | rfl | rfl | rfl | rfl | rfl <;> decide
  · have hdata : (sanitize_branch_name s).data = sanitizeList s.data := by
      simp only [sanitize_branch_name]
    have hval : sanitizeList s.data = collapseDashes
        (sanitizeTokens.foldl (fun acc t => pyReplace [t] ['-'] acc) (pyStrip s.data)) := by
      unfold sanitizeList
      rw [if_neg hR]
    refine ⟨?_, ?_, ?_, ?_⟩
    · intro he
      apply hR
      rw [← hval, ← hdata, he]
    · intro c hc hmem
      rw [hdata, hval] at hmem
      have hcd : c ≠ '-' := by
        simp only [sanitizeTokens, List.mem_cons, List.not_mem_nil, or_false] at hc
        rcases hc with rfl | rfl | rfl | rfl | rfl | rfl | rfl | rfl | rfl <;> decide
      rcases collapseAux_mem _ _ _ hmem with h1 | h1
      · exact foldl_replace_not_mem sanitizeTokens c hcd _ (Or.inl hc) h1
      · exact hcd h1
    · rw [hdata, hval]
      exact collapseAux_no_dd _ _ (le_refl _)
    · intro hsp
      exfalso
      apply hR
      rw [pyStrip_all_space s.data hsp, foldl_replace_nil]
      rfl

theorem sanitize_branch_name_spec_witness :
    sanitize_branch_name "  " = "branch" ∧
    sanitize_branch_name "a/b" ≠ "" ∧
    '/' ∉ (sanitize_branch_name "a/b").data := by
  refine ⟨?_, ?_, ?_⟩
  · exact (sanitize_branch_name_spec "  ").2.2.2 (by decide)
  · exact (sanitize_branch_name_spec "a/b").1
  · exact (sanitize_branch_name_spec "a/b").2.1 '/' (by decide)

theorem pyReplaceAux_wellCRLF (s : List Char) (h : WellCRLF s) :
    ∀ fuel : Nat, s.length ≤ fuel → '\r' ∉ pyReplaceAux ['\r', '\n'] ['\n'] fuel s := by
  induction h with
  | nil =>
    intro fuel _
    simp [pyReplaceAux_nil]
  | @crlf l hl ih =>
    intro fuel hf
    match fuel, hf with
    | n + 1, hf =>
      rw [pyReplaceAux]
      split
      · simp only [List.length_cons, List.length_nil, List.drop_succ_cons,
          List.drop_zero, List.singleton_append]
        intro hmem
        rcases List.mem_cons.mp hmem with h1 | h1
        · exact absurd h1 (by decide)
        · refine ih n ?_ h1
          simp only [List.length_cons] at hf
          omega
      · next hcond =>
        exact absurd (by simp [startsWith]) hcond
  | @other c l hc hl ih =>
    intro fuel hf
    match fuel, hf with
    | n + 1, hf =>
      rw [pyReplaceAux]
      split
      · next hcond =>
        exfalso
        have h1 := (Bool.and_eq_true ..).mp hcond |>.1
        simp only [startsWith, Bool.and_eq_true, beq_iff_eq] at h1
        exact hc h1.1.symm
      · intro hmem
        rcases List.mem_cons.mp hmem with h1 | h1
        · exact hc h1.symm
        · refine ih n ?_ h1
          simp only [List.length_cons] at hf
          omega

/-- Claim C2 (amended): create_file rewrites each CRLF pair to LF in a single
left-to-right pass before writing; when every carriage return in the
content occurs as part of a CRLF pair, the written file contains no
carriage return, and the documented round trip holds; a lone carriage
return, however, is preserved unchanged (see the counterexample). -/
theorem create_file_normalizes_crlf (c : String) (h : WellCRLF c.data) :
    '\r' ∉ (create_file_written c).data ∧
    create_file_written "a\r\nb\r\n" = "a\nb\n" := by
  refine ⟨?_, by decide⟩
  exact pyReplaceAux_wellCRLF c.data h c.data.length (le_refl _)

theorem create_file_normalizes_crlf_witness :
    WellCRLF ("a\r\nb\r\n".data) ∧ '\r' ∉ (create_file_written "a\r\nb\r\n").data := by
  have hw : WellCRLF ("a\r\nb\r\n".data) := by
    show WellCRLF ['a', '\r', '\n', 'b', '\r', '\n']
    exact .other (by decide) (.crlf (.other (by decide) (.crlf .nil)))
  exact ⟨hw, (create_file_normalizes_crlf "a\r\nb\r\n" hw).1⟩

/-- Claim C2 (counterexample): the claim that every line-terminator convention is
normalized fails for a lone carriage return: `"a\rb"` is written back
verbatim, still containing CR, rather than as `"a\nb"`. -/
theorem create_file_lone_cr_counterexample :
    create_file_written "a\rb" = "a\rb" ∧
    create_file_written "a\rb" ≠ "a\nb" ∧
    '\r' ∈ (create_file_written "a\rb").data := by
  decide

theorem mem_agentKeys_ne_empty (a : String) (ha : a ∈ agentKeys) : a ≠ "" := by
  intro he
  subst he
  revert ha
  decide

theorem mem_scriptKeys_ne_empty (s : String) (hs : s ∈ scriptKeys) : s ≠ "" := by
  intro he
  subst he
  revert hs
  decide

theorem agentLookup_isSome (a : String) (ha : a ∈ agentKeys) : (agentLookup a).isSome := by
  have h : a = "copilot" ∨ a = "claude" ∨ a = "gemini" ∨ a = "cursor" ∨
      a = "openai" ∨ a = "generic" := by
    simpa [agentKeys, AGENT_CONFIG] using ha
  rcases h with rfl | rfl | rfl | rfl | rfl | rfl <;> decide

theorem resolveAI_valid (a : String) (ha : a ∈ agentKeys) (env : Env) :
    resolveAI (some a) env = ([], .ok a) := by
  have hne : a ≠ "" := mem_agentKeys_ne_empty a ha
  simp [resolveAI, hne, ha]

theorem resolveScript_valid (s : String) (hs : s ∈ scriptKeys) (env : Env) :
    resolveScript (some s) env = ([], .ok s) := by
  have hne : s ≠ "" := mem_scriptKeys_ne_empty s hs
  simp [resolveScript, hne, hs]

theorem resolveScriptDefault_no_selAssistant (env : Env) :
    Ev.selectorAssistant ∉ (resolveScriptDefault env).1 := by
  unfold resolveScriptDefault
  repeat' split
  all_goals simp

theorem resolveScript_no_selAssistant (st : Option String) (env : Env) :
    Ev.selectorAssistant ∉ (resolveScript st env).1 := by
  cases st with
  | none => simpa [resolveScript] using resolveScriptDefault_no_selAssistant env
  | some s =>
    by_cases h1 : s = ""
    · subst h1
      simpa [resolveScript] using resolveScriptDefault_no_selAssistant env
    · by_cases h2 : s ∈ scriptKeys <;> simp [resolveScript, h1, h2]

theorem createFileModel_no_sel (t : StepTracker) (key path : String) (mk : Bool)
    (err : Option String) (nt : Bool) :
    ∀ e ∈ (createFileModel t key path mk err nt).ev, e.isSel = false := by
  intro e he
  unfold createFileModel at he
  split at he
  · simp at he
  · split at he
    · simp only [List.mem_cons, List.not_mem_nil, or_false] at he
      rcases he with rfl | rfl <;> rfl
    · simp only [List.mem_cons, List.not_mem_nil, or_false] at he
      subst he
      rfl

theorem runSetup_no_sel (a s : String) (env : Env) :
    ∀ e ∈ (runSetup a s env).events, e.isSel = false := by
  unfold runSetup
  dsimp only
  split
  · simp
  · next name pdir =>
    split
    · next e1 =>
      intro e he
      simp only [List.mem_cons, List.not_mem_nil, or_false] at he
      rcases he with rfl | rfl <;> rfl
    · split
      · next e2 =>
        intro e he
        simp only [List.mem_append, List.mem_cons, List.not_mem_nil, or_false] at he
        rcases he with (rfl | rfl) | rfl <;> rfl
      · split
        · next e3 heq =>
          intro e he
          simp only [List.mem_append, List.mem_cons, List.not_mem_nil, or_false] at he
          rcases he with ((rfl | rfl) | (rfl | rfl)) | hin
          · rfl
          · rfl
          · rfl
          · rfl
          · exact createFileModel_no_sel _ _ _ _ _ _ e hin
        · next heq =>
          split
          · next e4 heq2 =>
            intro e he
            simp only [List.mem_append, List.mem_cons, List.not_mem_nil, or_false] at he
            rcases he with (((rfl | rfl) | (rfl | rfl)) | hin) | hin2
            · rfl
            · rfl
            · rfl
            · rfl
            · exact createFileModel_no_sel _ _ _ _ _ _ e hin
            · exact createFileModel_no_sel _ _ _ _ _ _ e hin2
          · next heq2 =>
            intro e he
            simp only [List.mem_append, List.mem_cons, List.not_mem_nil, or_false] at he
            rcases he with ((((rfl | rfl) | (rfl | rfl)) | hin) | hin2) | rfl
            · rfl
            · rfl
            · rfl
            · rfl
            · exact createFileModel_no_sel _ _ _ _ _ _ e hin
            · exact createFileModel_no_sel _ _ _ _ _ _ e hin2
            · rfl

/-- Claim C7: for every valid assistant identifier supplied via the flag, init
accepts it directly and never invokes the interactive selector for the
assistant choice, on any path of the run. -/
theorem valid_ai_flag_skips_selector (a : String) (ha : a ∈ agentKeys)
    (scriptType : Option String) (here : Bool) (env : Env) :
    (init (some a) scriptType here env).selAI = some a ∧
    Ev.selectorAssistant ∉ (init (some a) scriptType here env).events := by
  unfold init
  rw [resolveAI_valid a ha env]
  dsimp only
  rcases hS : resolveScript scriptType env with ⟨evS, rs⟩
  have hevS : Ev.selectorAssistant ∉ evS := by
    have h := resolveScript_no_selAssistant scriptType env
    rw [hS] at h
    exact h
  dsimp only
  cases rs with
  | error u =>
    refine ⟨rfl, ?_⟩
    intro hmem
    simp only [List.mem_cons, List.nil_append] at hmem
    rcases hmem with h | h
    · exact absurd h.symm (by decide)
    · exact hevS h
  | ok s =>
    refine ⟨rfl, ?_⟩
    intro hmem
    simp only [List.mem_cons, List.nil_append, List.mem_append] at hmem
    rcases hmem with h | h | h
    · exact absurd h.symm (by decide)
    · exact hevS h
    · have := runSetup_no_sel a s env _ h
      simp [Ev.isSel] at this

theorem valid_ai_flag_skips_selector_witness :
    "claude" ∈ agentKeys ∧
    Ev.selectorAssistant ∉ (init (some "claude") none false envPosixOk).events :=
  ⟨by decide, (valid_ai_flag_skips_selector "claude" (by decide) none false envPosixOk).2⟩

/-- Claim C8: a non-interactive run with no flags on a non-Windows host resolves
the assistant to the default copilot and the script flavor to sh, and logs
both auto-selected defaults. -/
theorem non_interactive_defaults (env : Env) (h1 : env.isatty = false)
    (h2 : env.isWindows = false) (here : Bool) :
    (init none none here env).selAI = some "copilot" ∧
    (init none none here env).selScript = some "sh" ∧
    Ev.printDefaultAI "copilot" ∈ (init none none here env).events ∧
    Ev.printDefaultScript "sh" ∈ (init none none here env).events := by
  have hra : resolveAI none env = ([.printDefaultAI "copilot"], .ok "copilot") := by
    simp [resolveAI, resolveAIDefault, h1]
  have hrs : resolveScript none env = ([.printDefaultScript "sh"], .ok "sh") := by
    simp [resolveScript, resolveScriptDefault, h1, h2]
  unfold init
  rw [hra]
  dsimp only
  rw [hrs]
  dsimp only
  refine ⟨rfl, rfl, by simp, by simp⟩

theorem non_interactive_defaults_witness :
    envPosixOk.isatty = false ∧ envPosixOk.isWindows = false ∧
    (init none none false envPosixOk).selAI = some "copilot" ∧
    (init none none false envPosixOk).selScript = some "sh" ∧
    Ev.printDefaultAI "copilot" ∈ (init none none false envPosixOk).events := by
  have h := non_interactive_defaults envPosixOk rfl rfl false
  exact ⟨rfl, rfl, h.1, h.2.1, h.2.2.1⟩

/-- Claim C6 (amended): supplying a non-empty invalid value for the assistant or
script-flavor flag makes init exit with status 1 after printing the error
listing the valid values, before any filesystem event; an empty string
supplied for a flag is falsy in the source and treated as an absent flag
(see the counterexample). -/
theorem init_invalid_flag_exits_one (a s : String) (here : Bool) (env : Env) :
    (a ∉ agentKeys → a ≠ "" →
      (init (some a) (some s) here env).exit = .exitCode 1 ∧
      Ev.printErrInvalidAI a agentKeys ∈ (init (some a) (some s) here env).events ∧
      (init (some a) (some s) here env).events.filter Ev.isFs = []) ∧
    (a ∈ agentKeys → s ∉ scriptKeys → s ≠ "" →
      (init (some a) (some s) here env).exit = .exitCode 1 ∧
      Ev.printErrInvalidScriptFlavor s scriptKeys ∈ (init (some a) (some s) here env).events ∧
      (init (some a) (some s) here env).events.filter Ev.isFs = []) := by
  constructor
  · intro ha hne
    have hra : resolveAI (some a) env = ([.printErrInvalidAI a agentKeys], .error ()) := by
      simp [resolveAI, hne, ha]
    unfold init
    rw [hra]
    dsimp only
    exact ⟨rfl, by simp, rfl⟩
  · intro ha hs hne
    have hrs : resolveScript (some s) env =
        ([.printErrInvalidScriptFlavor s scriptKeys], .error ()) := by
      simp [resolveScript, hne, hs]
    unfold init
    rw [resolveAI_valid a ha env]
    dsimp only
    rw [hrs]
    dsimp only
    exact ⟨rfl, by simp, rfl⟩

theorem init_invalid_flag_exits_one_witness :
    ("bogus" ∉ agentKeys ∧
      (init (some "bogus") (some "sh") false envPosixOk).exit = .exitCode 1 ∧
      (init (some "bogus") (some "sh") false envPosixOk).events.filter Ev.isFs = []) ∧
    ("copilot" ∈ agentKeys ∧ "xx" ∉ scriptKeys ∧
      (init (some "copilot") (some "xx") false envPosixOk).exit = .exitCode 1) := by
  constructor
  · have h := (init_invalid_flag_exits_one "bogus" "sh" false envPosixOk).1
      (by decide) (by decide)
    exact ⟨by decide, h.1, h.2.2⟩
  · have h := (init_invalid_flag_exits_one "copilot" "xx" false envPosixOk).2
      (by decide) (by decide) (by decide)
    exact ⟨by decide, by decide, h.1⟩

/-- Claim C6 (counterexample): the empty string is not a valid assistant key, yet
supplying it does not exit with status 1: Python `if ai:` treats it as
falsy, so the run falls through to the non-interactive default, creates
the files, prints no invalid-value error, and exits 0. -/
theorem init_empty_flag_counterexample :
    "" ∉ agentKeys ∧
    exitCodeOf (init (some "") none false envPosixOk).exit = 0 ∧
    Ev.fileWrite ".code_review/scripts/git-relatorio.sh" ∈
      (init (some "") none false envPosixOk).events ∧
    Ev.printErrInvalidAI "" agentKeys ∉ (init (some "") none false envPosixOk).events := by
  decide

theorem runSetup_dirs_failure (a s e : String) (env : Env)
    (hlk : (agentLookup a).isSome = true)
    (hd : env.mkdirScriptsErr = some e ∨
      (env.mkdirScriptsErr = none ∧ env.mkdirPromptErr = some e)) :
    (runSetup a s env).exit = .normal ∧
    (runSetup a s env).tracker.statusOf "dirs" = some "error" ∧
    (runSetup a s env).events.filter Ev.isWrite = [] := by
  obtain ⟨p, hp⟩ := Option.isSome_iff_exists.mp hlk
  obtain ⟨name, pdir⟩ := p
  unfold runSetup
  rw [hp]
  dsimp only
  rcases hd with h | ⟨h1, h2⟩
  · rw [h]
    dsimp only
    refine ⟨rfl, ?_, rfl⟩
    simp [StepTracker.add, StepTracker.start, StepTracker.error, StepTracker.update,
      updateStep, StepTracker.statusOf, List.find?]
  · rw [h1]
    dsimp only
    rw [h2]
    dsimp only
    refine ⟨rfl, ?_, rfl⟩
    simp [StepTracker.add, StepTracker.start, StepTracker.error, StepTracker.update,
      updateStep, StepTracker.statusOf, List.find?]

/-- Claim C1 (amended): when directory creation fails, the tracker shows the
dirs step in status error and init writes no file, but the process then
returns normally: the exit status is 0, not non-zero (see the
counterexample). -/
theorem init_dirs_failure_exits_zero (a s e : String) (here : Bool) (env : Env)
    (ha : a ∈ agentKeys) (hs : s ∈ scriptKeys)
    (hd : env.mkdirScriptsErr = some e ∨
      (env.mkdirScriptsErr = none ∧ env.mkdirPromptErr = some e)) :
    (init (some a) (some s) here env).exit = .normal ∧
    exitCodeOf (init (some a) (some s) here env).exit = 0 ∧
    (init (some a) (some s) here env).tracker.statusOf "dirs" = some "error" ∧
    (init (some a) (some s) here env).events.filter Ev.isWrite = [] := by
  have hrun := runSetup_dirs_failure a s e env (agentLookup_isSome a ha) hd
  unfold init
  rw [resolveAI_valid a ha env]
  dsimp only
  rw [resolveScript_valid s hs env]
  dsimp only
  refine ⟨hrun.1, ?_, hrun.2.1, ?_⟩
  · show exitCodeOf (runSetup a s env).exit = 0
    rw [hrun.1]
    rfl
  · show List.filter Ev.isWrite (Ev.banner :: ([] ++ ([] ++ (runSetup a s env).events))) = []
    simp only [List.nil_append, List.filter_cons]
    rw [hrun.2.2]
    rfl

theorem init_dirs_failure_exits_zero_witness :
    "copilot" ∈ agentKeys ∧ "sh" ∈ scriptKeys ∧
    ({ envPosixOk with mkdirScriptsErr := some "boom" } : Env).mkdirScriptsErr = some "boom" ∧
    exitCodeOf (init (some "copilot") (some "sh") false
      { envPosixOk with mkdirScriptsErr := some "boom" }).exit = 0 := by
  refine ⟨by decide, by decide, rfl, ?_⟩
  exact (init_dirs_failure_exits_zero "copilot" "sh" "boom" false
    { envPosixOk with mkdirScriptsErr := some "boom" } (by decide) (by decide) (Or.inl rfl)).2.1

/-- Claim C1 (counterexample): with valid flags and a failing directory
creation, the tracker does show the dirs step in error, but the process
exit status is 0, contradicting the claimed non-zero exit. -/
theorem init_dirs_failure_counterexample :
    (init (some "copilot") (some "sh") false
        { envPosixOk with mkdirScriptsErr := some "Permission denied" }).tracker.statusOf
      "dirs" = some "error" ∧
    exitCodeOf (init (some "copilot") (some "sh") false
      { envPosixOk with mkdirScriptsErr := some "Permission denied" }).exit = 0 := by
  decide

end CodeReview
